import Mathlib

/-!
Shallow embedding of `src/retrieval.py` (module `retrieval` of
deep-research-reporter): a Wikipedia open-search client with an LRU cache.

The embedding models:
* parsed JSON payloads (`Json`) with Python-style subscript, iteration and
  `dict.get` semantics, each of which can raise a Python exception (`PyErr`);
* the network as an oracle (`World`) mapping requests to outcomes;
* `_open_book_search_cached` as a function returning the Python result or a
  raised exception, together with the list of network requests it issued;
* the `functools.lru_cache(maxsize=128)` wrapper as an explicit LRU state;
* the `copy.deepcopy` defensive-copy step of `open_book_search` as a heap
  model with explicit addresses, so aliasing claims can be stated.
-/

namespace Retrieval

/-- Parsed JSON values, as produced by `resp.json()`. -/
inductive Json where
  | null
  | bool (b : Bool)
  | num (n : Int)
  | str (s : String)
  | arr (elems : List Json)
  | obj (fields : List (String × Json))
deriving Repr, Inhabited

/-- Python exceptions that the embedded code can raise. -/
inductive PyErr where
  | indexError
  | keyError
  | typeError
  | attributeError
deriving Repr, DecidableEq

/-- Python subscript `data[i]` for a non-negative integer literal `i`:
succeeds on a long-enough list or string, raises `KeyError` on a dict with
string keys, `TypeError` otherwise, `IndexError` when out of range. -/
def Json.pyIndex : Json → Nat → Except PyErr Json
  | .arr xs, i =>
      if h : i < xs.length then .ok (xs.get ⟨i, h⟩) else .error .indexError
  | .str s, i =>
      if h : i < s.data.length then .ok (.str (String.mk [s.data.get ⟨i, h⟩]))
      else .error .indexError
  | .obj _, _ => .error .keyError
  | _, _ => .error .typeError

/-- Python iteration (as performed by `zip`): lists yield their elements,
strings their characters, dicts their keys; other values raise `TypeError`. -/
def Json.toIterable : Json → Except PyErr (List Json)
  | .arr xs => .ok xs
  | .str s => .ok (s.data.map (fun c => Json.str (String.mk [c])))
  | .obj fs => .ok (fs.map (fun p => Json.str p.1))
  | _ => .error .typeError

/-- Python `d.get(key, default)`: defined on dicts, raises `AttributeError`
on any other value. -/
def Json.dictGet : Json → String → Json → Except PyErr Json
  | .obj fs, k, d =>
      .ok (((fs.find? (fun p => p.1 == k)).map Prod.snd).getD d)
  | _, _, _ => .error .attributeError

/-- Outcome of one `requests.get` call: a raised exception (connection
error, timeout), or a response with a status code and a body that either
parses as JSON or makes `resp.json()` raise. -/
inductive HttpOutcome where
  | netErr
  | resp (status : Nat) (body : Except Unit Json)

/-- The network oracle: the response of the opensearch endpoint for given
`search`/`limit` parameters, and of the summary endpoint for a given title. -/
structure World where
  searchResp : String → Int → HttpOutcome
  summaryResp : Json → HttpOutcome

/-- One record of the result: the Python dict
`{"title": title, "url": url, "summary": summary}`. -/
structure ResultRecord where
  title : Json
  url : Json
  summary : Json
deriving Repr, Inhabited

/-- A network request issued by the code, for counting network calls. -/
inductive NetRequest where
  | searchReq (query : String) (limit : Int)
  | summaryReq (title : Json)
deriving Repr

/-- The per-title summary fetch of `_open_book_search_cached`: `summary`
starts as `""`; the whole `try` block (HTTP call, status test, JSON parse,
`.get("extract", "")`) is wrapped so any exception leaves `summary = ""`;
a non-200 status also leaves it `""`. -/
def fetchSummary (w : World) (title : Json) : Json :=
  match w.summaryResp title with
  | .netErr => .str ""
  | .resp status body =>
      if status = 200 then
        match body with
        | .error _ => .str ""
        | .ok j =>
            match j.dictGet "extract" (.str "") with
            | .error _ => .str ""
            | .ok v => v
      else .str ""

/-- The record built for one zipped `(title, url)` pair. -/
def mkRecord (w : World) (p : Json × Json) : ResultRecord :=
  ⟨p.1, p.2, fetchSummary w p.1⟩

/-- `titles = data[1]; urls = data[3]; zip(titles, urls)` — the part of the
body that runs OUTSIDE the `try`, so its exceptions propagate. -/
def extractPairs (data : Json) : Except PyErr (List (Json × Json)) :=
  match data.pyIndex 1 with
  | .error e => .error e
  | .ok titlesJ =>
      match data.pyIndex 3 with
      | .error e => .error e
      | .ok urlsJ =>
          match titlesJ.toIterable with
          | .error e => .error e
          | .ok titles =>
              match urlsJ.toIterable with
              | .error e => .error e
              | .ok urls => .ok (titles.zip urls)

/-- `requests.get(...); resp.raise_for_status(); data = resp.json()` with its
surrounding `try/except`: `none` when the attempt was caught (connection
error, HTTP 4xx/5xx raised by `raise_for_status`, or JSON parse failure),
`some data` when a payload was parsed. -/
def parsedPayload (w : World) (query : String) (n_results : Int) : Option Json :=
  match w.searchResp query n_results with
  | .netErr => none
  | .resp status body =>
      if 400 ≤ status ∧ status < 600 then none
      else
        match body with
        | .error _ => none
        | .ok data => some data

/-- The body of `_open_book_search_cached(query, n_results)` (the function
wrapped by `lru_cache`), returning the Python value or the raised exception,
paired with the network requests issued, in order. -/
def _open_book_search_cached (w : World) (query : String) (n_results : Int) :
    Except PyErr (List ResultRecord) × List NetRequest :=
  if query = "" then (.ok [], [])
  else
    match parsedPayload w query n_results with
    | none => (.ok [], [NetRequest.searchReq query n_results])
    | some data =>
        match extractPairs data with
        | .error e => (.error e, [NetRequest.searchReq query n_results])
        | .ok pairs =>
            (.ok (pairs.map (mkRecord w)),
             NetRequest.searchReq query n_results ::
               pairs.map (fun p => NetRequest.summaryReq p.1))

/-- Cache key of `functools.lru_cache` on `_open_book_search_cached`:
the argument tuple `(query, n_results)`. -/
abbrev CacheKey := String × Int

/-- State of `functools.lru_cache(maxsize=128)`: the entries, most recently
used first. -/
structure LruState where
  entries : List (CacheKey × List ResultRecord)

/-- Cache lookup: a hit returns the stored value and moves the entry to the
most-recently-used position; a miss leaves the state unchanged. -/
def lruLookup (c : LruState) (k : CacheKey) :
    Option (List ResultRecord) × LruState :=
  match c.entries.find? (fun e => decide (e.1 = k)) with
  | some e =>
      (some e.2, ⟨e :: c.entries.filter (fun x => !decide (x.1 = k))⟩)
  | none => (none, c)

/-- Cache insertion after a miss: the new entry becomes most recently used
and, when the capacity of 128 is exceeded, the least-recently-used entry
(the last one) is dropped. -/
def lruInsert (c : LruState) (k : CacheKey) (v : List ResultRecord) :
    LruState :=
  ⟨((k, v) :: c.entries).take 128⟩

/-- One call to the `lru_cache`-wrapped `_open_book_search_cached`: on a hit
the cached tuple is returned with no network traffic; on a miss the body
runs, and its value is cached — unless the body raises, in which case
`lru_cache` caches nothing and the exception propagates. -/
def open_book_search_cached_call (w : World) (c : LruState) (query : String)
    (n_results : Int) :
    Except PyErr (List ResultRecord) × LruState × List NetRequest :=
  match lruLookup c (query, n_results) with
  | (some v, c') => (.ok v, c', [])
  | (none, _) =>
      match _open_book_search_cached w query n_results with
      | (.error e, log) => (.error e, c, log)
      | (.ok v, log) => (.ok v, lruInsert c (query, n_results) v, log)

/-- `open_book_search(query, n_results)`: the public wrapper. At the level
of values (ignoring object identity, which the heap model below covers) the
`[copy.deepcopy(r) for r in ...]` step returns the cached value itself. -/
def open_book_search (w : World) (c : LruState) (query : String)
    (n_results : Int) :
    Except PyErr (List ResultRecord) × LruState × List NetRequest :=
  open_book_search_cached_call w c query n_results

/-!
Heap model for the defensive-copy step. Python dicts are mutable objects;
the cached tuple holds references to record dicts, and
`[copy.deepcopy(r) for r in t]` allocates fresh dicts. We model record
objects as cells of a heap addressed by allocation order, so that "mutating
a returned record" and "the cache's records" are distinct addresses.
-/

/-- A heap of record objects; the address of a cell is its index, and
allocation appends. -/
structure Heap where
  cells : List ResultRecord

/-- Read the record object at address `a`. -/
def Heap.read (h : Heap) (a : Nat) : Option ResultRecord :=
  h.cells[a]?

/-- Allocate a fresh record object, returning its address. -/
def Heap.alloc (h : Heap) (r : ResultRecord) : Heap × Nat :=
  (⟨h.cells ++ [r]⟩, h.cells.length)

/-- Mutate the record object at address `a` in place. -/
def Heap.write (h : Heap) (a : Nat) (r : ResultRecord) : Heap :=
  ⟨h.cells.set a r⟩

/-- Read a list of addresses. -/
def Heap.readAll (h : Heap) (as : List Nat) : List (Option ResultRecord) :=
  as.map h.read

/-- `[copy.deepcopy(r) for r in t]` on a cached tuple `t` of record
addresses: allocate a fresh copy of each record, in order, and return the
fresh addresses. -/
def deepcopyAll (h : Heap) : List Nat → Heap × List Nat
  | [] => (h, [])
  | a :: rest =>
      match h.read a with
      | some r =>
          let p := Heap.alloc h r
          let q := deepcopyAll p.1 rest
          (q.1, p.2 :: q.2)
      | none => deepcopyAll h rest

/-- The contents carried by the list returned to the caller: the records at
the freshly allocated addresses, in the post-copy heap. -/
def returnedContents (h : Heap) (as : List Nat) : List (Option ResultRecord) :=
  (deepcopyAll h as).1.readAll (deepcopyAll h as).2

/-- The attempt at the search endpoint was caught by the `try/except`:
connection error, status raising in `raise_for_status`, or JSON parse
failure of the body. -/
def searchFailed (w : World) (query : String) (n_results : Int) : Bool :=
  match w.searchResp query n_results with
  | .netErr => true
  | .resp status body =>
      if 400 ≤ status ∧ status < 600 then true
      else
        match body with
        | .error _ => true
        | .ok _ => false

/-- The summary request for a title failed or did not yield a usable
extract: connection error, non-200 status, JSON parse failure, or a body
with no `.get` method. -/
def summaryFailed (w : World) (title : Json) : Bool :=
  match w.summaryResp title with
  | .netErr => true
  | .resp status body =>
      if status = 200 then
        match body with
        | .error _ => true
        | .ok j =>
            match j.dictGet "extract" (.str "") with
            | .error _ => true
            | .ok _ => false
      else true

/-- Every cache entry stores exactly the value the wrapped function
computes for its key — the invariant `lru_cache` maintains, since entries
are only ever filled from return values of the wrapped function. -/
def CacheConsistent (w : World) (c : LruState) : Prop :=
  ∀ e ∈ c.entries, (_open_book_search_cached w e.1.1 e.1.2).1 = .ok e.2

/-- A world whose search endpoint answers 200 with the valid JSON payload
`[]` — an array with no element at index 1 or 3. -/
def wShape : World :=
  ⟨fun _ _ => .resp 200 (.ok (.arr [])), fun _ => .netErr⟩

/-- The opensearch payload `["q", ["A", "B"], "d", ["u1", "u2"]]`. -/
def dataAB : Json :=
  .arr [.str "q", .arr [.str "A", .str "B"], .str "d",
        .arr [.str "u1", .str "u2"]]

/-- The `(title, url)` pairs of `dataAB`. -/
def pairsAB : List (Json × Json) :=
  [(.str "A", .str "u1"), (.str "B", .str "u2")]

/-- A world where the search succeeds with `dataAB` and both summary
lookups succeed, with extracts `"sA"` and `"sB"`. -/
def wAB : World :=
  ⟨fun _ _ => .resp 200 (.ok dataAB),
   fun t =>
     match t with
     | .str s =>
         if s = "A" then .resp 200 (.ok (.obj [("extract", .str "sA")]))
         else if s = "B" then .resp 200 (.ok (.obj [("extract", .str "sB")]))
         else .netErr
     | _ => .netErr⟩

/-- The records `open_book_search` assembles in the world `wAB`. -/
def abRecords : List ResultRecord :=
  [⟨.str "A", .str "u1", .str "sA"⟩, ⟨.str "B", .str "u2", .str "sB"⟩]

/-- A world where the search succeeds with `dataAB`, the summary of `"A"`
succeeds with extract `"sA"`, and every other summary request answers 404. -/
def wABfail : World :=
  ⟨fun _ _ => .resp 200 (.ok dataAB),
   fun t =>
     match t with
     | .str s =>
         if s = "A" then .resp 200 (.ok (.obj [("extract", .str "sA")]))
         else .resp 404 (.ok .null)
     | _ => .netErr⟩

/-- A world where every request raises a connection error. -/
def wNet : World :=
  ⟨fun _ _ => .netErr, fun _ => .netErr⟩

/-- An opensearch payload with three titles but only two urls. -/
def dataUneven : Json :=
  .arr [.str "q", .arr [.str "T1", .str "T2", .str "T3"], .str "d",
        .arr [.str "u1", .str "u2"]]

/-- A world whose search answers `dataUneven` and whose summary endpoint
always fails. -/
def wUneven : World :=
  ⟨fun _ _ => .resp 200 (.ok dataUneven), fun _ => .netErr⟩

/-- 127 cache entries with pairwise distinct keys `("k", 0) … ("k", 126)`. -/
def frontCache : List (CacheKey × List ResultRecord) :=
  (List.range 127).map
    (fun i => ((("k" : String), (i : Int)), ([] : List ResultRecord)))

/-- A 128th entry, least recently used when placed last. -/
def lruEntry : CacheKey × List ResultRecord :=
  ((("k" : String), (127 : Int)), [])

/-- A cache at full capacity: 128 entries, `lruEntry` least recently used. -/
def fullCache : LruState :=
  ⟨frontCache ++ [lruEntry]⟩

/-- Two record objects on the heap, as cached by a previous call. -/
def heap0 : Heap :=
  ⟨[⟨.str "A", .str "u1", .str "sA"⟩, ⟨.str "B", .str "u2", .str "sB"⟩]⟩

/-- A caught summary failure leaves the record's summary equal to `""`. -/
theorem fetchSummary_of_failed (w : World) (t : Json)
    (h : summaryFailed w t = true) : fetchSummary w t = .str "" := by
  unfold summaryFailed at h
  unfold fetchSummary
  cases hw : w.summaryResp t with
  | netErr => rfl
  | resp status body =>
      rw [hw] at h
      by_cases hs : status = 200
      · subst hs
        cases body with
        | error e => rfl
        | ok j =>
            cases hg : j.dictGet "extract" (.str "") with
            | error e => simp [hg]
            | ok v => simp [hg] at h
      · simp [hs]

/-- A caught search failure means no payload was parsed. -/
theorem searchFailed_parsedPayload (w : World) (q : String) (n : Int)
    (h : searchFailed w q n = true) : parsedPayload w q n = none := by
  unfold searchFailed at h
  unfold parsedPayload
  cases hw : w.searchResp q n with
  | netErr => rfl
  | resp status body =>
      rw [hw] at h
      by_cases hs : 400 ≤ status ∧ status < 600
      · simp [hs]
      · cases body with
        | error e => simp [hs]
        | ok data => simp [hs] at h

/-- Reduction of the body on a successfully parsed, well-shaped payload. -/
theorem cached_body_ok (w : World) (q : String) (n : Int) (data : Json)
    (pairs : List (Json × Json)) (hq : q ≠ "")
    (hp : parsedPayload w q n = some data)
    (he : extractPairs data = .ok pairs) :
    _open_book_search_cached w q n =
      (.ok (pairs.map (mkRecord w)),
       NetRequest.searchReq q n ::
         pairs.map (fun p => NetRequest.summaryReq p.1)) := by
  unfold _open_book_search_cached
  rw [if_neg hq, hp]
  simp only [he]

/-- Reduction of the body when the search attempt was caught. -/
theorem cached_body_fail (w : World) (q : String) (n : Int) (hq : q ≠ "")
    (hp : parsedPayload w q n = none) :
    _open_book_search_cached w q n =
      (.ok [], [NetRequest.searchReq q n]) := by
  unfold _open_book_search_cached
  rw [if_neg hq, hp]

/-- Shape hypotheses on indices 1 and 3 determine the zipped pairs. -/
theorem extractPairs_of_arrays (data : Json) (ts us : List Json)
    (ht : data.pyIndex 1 = .ok (.arr ts))
    (hu : data.pyIndex 3 = .ok (.arr us)) :
    extractPairs data = .ok (ts.zip us) := by
  unfold extractPairs
  rw [ht, hu]
  rfl

/-- Looking up a key right after inserting it hits the fresh entry. -/
theorem lruLookup_insert_self (c : LruState) (k : CacheKey)
    (v : List ResultRecord) :
    (lruLookup (lruInsert c k v) k).1 = some v := by
  unfold lruLookup lruInsert
  rw [show (128 : Nat) = 127 + 1 from rfl, List.take_succ_cons,
      List.find?_cons_of_pos _ (by simp)]

/-- A call whose lookup hits returns the stored value without traffic. -/
theorem call_hit_of_lookup_some (w : World) (c : LruState) (q : String)
    (n : Int) (v : List ResultRecord)
    (h : (lruLookup c (q, n)).1 = some v) :
    (open_book_search_cached_call w c q n).1 = .ok v ∧
    (open_book_search_cached_call w c q n).2.2 = [] := by
  unfold open_book_search_cached_call
  rcases hl : lruLookup c (q, n) with ⟨o, c1⟩
  rw [hl] at h
  cases o with
  | some v0 =>
      cases h
      exact ⟨rfl, rfl⟩
  | none => exact Option.noConfusion h

/-- The copy step only appends cells to the heap. -/
theorem deepcopyAll_cells_append (h : Heap) (as : List Nat) :
    ∃ t, (deepcopyAll h as).1.cells = h.cells ++ t := by
  induction as generalizing h with
  | nil => exact ⟨[], by simp [deepcopyAll]⟩
  | cons a rest ih =>
      unfold deepcopyAll
      cases hr : h.read a with
      | none => exact ih h
      | some r =>
          obtain ⟨t, ht⟩ := ih ⟨h.cells ++ [r]⟩
          refine ⟨[r] ++ t, ?_⟩
          simp only [Heap.alloc]
          rw [ht]
          simp

/-- Reading below the original heap bound is unaffected by the copy step. -/
theorem deepcopyAll_read_frame (h : Heap) (as : List Nat) (a : Nat)
    (ha : a < h.cells.length) :
    (deepcopyAll h as).1.read a = h.read a := by
  obtain ⟨t, ht⟩ := deepcopyAll_cells_append h as
  unfold Heap.read
  rw [ht, List.getElem?_append_left ha]

/-- Every address the copy step returns lies above the original bound. -/
theorem deepcopyAll_addrs_fresh (h : Heap) (as : List Nat) (b : Nat)
    (hb : b ∈ (deepcopyAll h as).2) : h.cells.length ≤ b := by
  induction as generalizing h with
  | nil => simp [deepcopyAll] at hb
  | cons a rest ih =>
      unfold deepcopyAll at hb
      cases hr : h.read a with
      | none =>
          rw [hr] at hb
          exact ih h hb
      | some r =>
          rw [hr] at hb
          rcases List.mem_cons.mp hb with h1 | h2
          · exact Nat.le_of_eq h1.symm
          · have h3 := ih ⟨h.cells ++ [r]⟩ h2
            simp only [List.length_append, List.length_singleton] at h3
            omega

/-- The copied records carry exactly the contents of the cached addresses. -/
theorem returnedContents_eq_readAll (h : Heap) (as : List Nat)
    (ha : ∀ a ∈ as, a < h.cells.length) :
    returnedContents h as = h.readAll as := by
  induction as generalizing h with
  | nil => rfl
  | cons a rest ih =>
      have haa : a < h.cells.length := ha a (List.mem_cons_self a rest)
      have hr : h.read a = some h.cells[a] := List.getElem?_eq_getElem haa
      unfold returnedContents deepcopyAll
      rw [hr]
      simp only [Heap.alloc, Heap.readAll, List.map_cons]
      congr 1
      · rw [deepcopyAll_read_frame ⟨h.cells ++ [h.cells[a]]⟩ rest h.cells.length
            (by simp)]
        show (h.cells ++ [h.cells[a]])[h.cells.length]? = h.read a
        rw [List.getElem?_concat_length, hr]
      · have ih1 := ih ⟨h.cells ++ [h.cells[a]]⟩
          (fun x hx => by
            have hxl := ha x (List.mem_cons_of_mem a hx)
            simp only [List.length_append, List.length_singleton]
            omega)
        unfold returnedContents Heap.readAll at ih1
        rw [ih1]
        refine List.map_congr_left (fun x hx => ?_)
        have hxl := ha x (List.mem_cons_of_mem a hx)
        show (h.cells ++ [h.cells[a]])[x]? = h.cells[x]?
        rw [List.getElem?_append_left hxl]

/-- Claim C1, counterexample: the claim says `open_book_search` never
raises for any query and count, with every malformed or unexpectedly-shaped
response payload recovered locally. In the world `wShape` the search
endpoint answers 200 with the valid JSON payload `[]`; `titles = data[1]`
runs outside the `try/except` and raises `IndexError` to the caller at
query `"q"`, count `3`. -/
theorem open_book_search_raises_on_short_payload :
    (_open_book_search_cached wShape "q" 3).1 = .error PyErr.indexError :=
  rfl

/-- Claim C1, amended: a call raises an exception exactly when the query is
non-empty, the search request itself succeeded with a parsed JSON payload,
and extracting `data[1]`, `data[3]` or iterating them fails; every network
error, non-success status and JSON parse failure (and every summary
failure) is recovered into empty results or empty summaries. -/
theorem open_book_search_error_characterization (w : World) (q : String)
    (n : Int) :
    (∃ err, (_open_book_search_cached w q n).1 = .error err) ↔
      ∃ data err, q ≠ "" ∧ parsedPayload w q n = some data ∧
        extractPairs data = .error err := by
  unfold _open_book_search_cached
  by_cases hq : q = ""
  · rw [if_pos hq]
    simp [hq]
  · rw [if_neg hq]
    cases hp : parsedPayload w q n with
    | none => simp [hq]
    | some data =>
        cases he : extractPairs data with
        | error err => simp [hq, he]
        | ok pairs => simp [hq, he]

/-- Claim C2: on any search response whose payload parses and has the
expected shape, the result is exactly one record per zipped `(title, url)`
pair, in the search endpoint's title order, each pairing the title with its
corresponding URL and its fetched summary. -/
theorem open_book_search_preserves_order (w : World) (q : String) (n : Int)
    (data : Json) (pairs : List (Json × Json)) (hq : q ≠ "")
    (hp : parsedPayload w q n = some data)
    (he : extractPairs data = .ok pairs) :
    (_open_book_search_cached w q n).1 = .ok (pairs.map (mkRecord w)) := by
  rw [cached_body_ok w q n data pairs hq hp he]

/-- Claim C2, witness: with titles `["A", "B"]`, urls `["u1", "u2"]` and
extracts `"sA"`, `"sB"`, the result is exactly the two records in order. -/
theorem open_book_search_preserves_order_witness :
    (("q" : String) ≠ "") ∧
    (_open_book_search_cached wAB "q" 2).1 =
      .ok [⟨.str "A", .str "u1", .str "sA"⟩,
           ⟨.str "B", .str "u2", .str "sB"⟩] :=
  ⟨by decide,
   (open_book_search_preserves_order wAB "q" 2 dataAB pairsAB (by decide)
       rfl rfl).trans (by rfl)⟩

/-- Claim C3, counterexample: the claim says every second call with
identical arguments returns an equal result with no second network
request. In the world `wShape` the first call raises (so `lru_cache`
stores nothing), and the second identical call issues the search request
again. -/
theorem second_call_retries_after_raise :
    (open_book_search_cached_call wShape ⟨[]⟩ "q" 3).1 =
      .error PyErr.indexError ∧
    (open_book_search_cached_call wShape
        (open_book_search_cached_call wShape ⟨[]⟩ "q" 3).2.1 "q" 3).2.2 =
      [NetRequest.searchReq "q" 3] :=
  ⟨rfl, rfl⟩

/-- Claim C3, amended: provided the first call returns normally (does not
raise), a second call with identical arguments returns a structurally
equal result and performs no network request — it is served from the
cache keyed by `(query, count)`. -/
theorem second_call_cache_hit (w : World) (c : LruState) (q : String)
    (n : Int) (v : List ResultRecord)
    (h : (open_book_search_cached_call w c q n).1 = .ok v) :
    (open_book_search_cached_call w
        (open_book_search_cached_call w c q n).2.1 q n).1 = .ok v ∧
    (open_book_search_cached_call w
        (open_book_search_cached_call w c q n).2.1 q n).2.2 = [] := by
  cases hf : c.entries.find? (fun x => decide (x.1 = (q, n))) with
  | some e =>
      have hcall : open_book_search_cached_call w c q n =
          (.ok e.2,
           ⟨e :: c.entries.filter (fun x => !decide (x.1 = (q, n)))⟩, []) := by
        unfold open_book_search_cached_call lruLookup
        rw [hf]
      rw [hcall] at h ⊢
      have he2 : e.2 = v := by simpa using h
      have hpe : e.1 = (q, n) := by
        have hpe0 := List.find?_some hf
        simpa using hpe0
      apply call_hit_of_lookup_some
      unfold lruLookup
      rw [List.find?_cons_of_pos _ (by simp [hpe])]
      show some e.2 = some v
      rw [he2]
  | none =>
      have hlk : lruLookup c (q, n) = (none, c) := by
        unfold lruLookup
        rw [hf]
      rcases hb : _open_book_search_cached w q n with ⟨res, log⟩
      cases res with
      | error err =>
          have hcall : open_book_search_cached_call w c q n =
              (.error err, c, log) := by
            unfold open_book_search_cached_call
            rw [hlk, hb]
          rw [hcall] at h
          exact Except.noConfusion h
      | ok v0 =>
          have hcall : open_book_search_cached_call w c q n =
              (.ok v0, lruInsert c (q, n) v0, log) := by
            unfold open_book_search_cached_call
            rw [hlk, hb]
          rw [hcall] at h ⊢
          have hv : v0 = v := by simpa using h
          subst hv
          apply call_hit_of_lookup_some
          exact lruLookup_insert_self c (q, n) v0

/-- Claim C3, witness: in the world `wAB` the first call succeeds, and the
second identical call returns the same records with no network request. -/
theorem second_call_cache_hit_witness :
    (open_book_search_cached_call wAB ⟨[]⟩ "q" 2).1 = .ok abRecords ∧
    (open_book_search_cached_call wAB
        (open_book_search_cached_call wAB ⟨[]⟩ "q" 2).2.1 "q" 2).1 =
      .ok abRecords ∧
    (open_book_search_cached_call wAB
        (open_book_search_cached_call wAB ⟨[]⟩ "q" 2).2.1 "q" 2).2.2 = [] := by
  have h := second_call_cache_hit wAB ⟨[]⟩ "q" 2 abRecords rfl
  exact ⟨rfl, h.1, h.2⟩

/-- Claim C4: cached record objects are never written by the copy step,
and every call returns freshly allocated copies; mutating any record
returned by one call leaves the contents a subsequent call with the same
arguments returns (the fresh copies of the cached addresses) unchanged. -/
theorem open_book_search_copy_isolation (h : Heap) (as : List Nat)
    (ha : ∀ a ∈ as, a < h.cells.length) (b : Nat) (r : ResultRecord)
    (hb : b ∈ (deepcopyAll h as).2) :
    returnedContents (Heap.write (deepcopyAll h as).1 b r) as =
      returnedContents h as := by
  have hfresh : h.cells.length ≤ b := deepcopyAll_addrs_fresh h as b hb
  obtain ⟨t, ht⟩ := deepcopyAll_cells_append h as
  have hwr : ∀ a ∈ as,
      (Heap.write (deepcopyAll h as).1 b r).read a = h.read a := by
    intro a haa
    have h1 : a < h.cells.length := ha a haa
    show ((deepcopyAll h as).1.cells.set b r)[a]? = h.cells[a]?
    rw [List.getElem?_set_ne (by omega), ht, List.getElem?_append_left h1]
  have hlen : ∀ a ∈ as,
      a < (Heap.write (deepcopyAll h as).1 b r).cells.length := by
    intro a haa
    have h1 : a < h.cells.length := ha a haa
    show a < ((deepcopyAll h as).1.cells.set b r).length
    rw [List.length_set, ht, List.length_append]
    omega
  rw [returnedContents_eq_readAll _ as hlen,
      returnedContents_eq_readAll h as ha]
  exact List.map_congr_left hwr

/-- Claim C4, witness: on a heap holding two cached records, mutating the
first freshly returned copy (address 2) does not change what a repeated
call returns. -/
theorem open_book_search_copy_isolation_witness :
    (∀ a ∈ [0, 1], a < heap0.cells.length) ∧
    2 ∈ (deepcopyAll heap0 [0, 1]).2 ∧
    returnedContents
        (Heap.write (deepcopyAll heap0 [0, 1]).1 2
          ⟨.str "X", .str "X", .str "X"⟩) [0, 1] =
      returnedContents heap0 [0, 1] :=
  ⟨by decide, by decide,
   open_book_search_copy_isolation heap0 [0, 1] (by decide) 2
     ⟨.str "X", .str "X", .str "X"⟩ (by decide)⟩

/-- Claim C5: when the search request itself is caught (network error,
4xx/5xx status, or parse failure), the call returns the empty sequence
after the one search request, the empty result is cached, and a second
identical call answers from the cache with no network request. -/
theorem search_failure_cached_empty (w : World) (c : LruState) (q : String)
    (n : Int) (hq : q ≠ "")
    (hmiss : c.entries.find? (fun x => decide (x.1 = (q, n))) = none)
    (hf : searchFailed w q n = true) :
    (open_book_search_cached_call w c q n).1 = .ok [] ∧
    (open_book_search_cached_call w c q n).2.2 =
      [NetRequest.searchReq q n] ∧
    (open_book_search_cached_call w
        (open_book_search_cached_call w c q n).2.1 q n).1 = .ok [] ∧
    (open_book_search_cached_call w
        (open_book_search_cached_call w c q n).2.1 q n).2.2 = [] := by
  have hlk : lruLookup c (q, n) = (none, c) := by
    unfold lruLookup
    rw [hmiss]
  have hbody := cached_body_fail w q n hq (searchFailed_parsedPayload w q n hf)
  have hcall : open_book_search_cached_call w c q n =
      (.ok [], lruInsert c (q, n) [], [NetRequest.searchReq q n]) := by
    unfold open_book_search_cached_call
    rw [hlk, hbody]
  rw [hcall]
  have hsecond := call_hit_of_lookup_some w (lruInsert c (q, n) []) q n []
    (lruLookup_insert_self c (q, n) [])
  exact ⟨rfl, rfl, hsecond.1, hsecond.2⟩

/-- Claim C5, witness: with every request raising a connection error, the
first call returns `[]` after one search request and the second identical
call returns the cached `[]` with no network request. -/
theorem search_failure_cached_empty_witness :
    (("q" : String) ≠ "") ∧ searchFailed wNet "q" 3 = true ∧
    (open_book_search_cached_call wNet ⟨[]⟩ "q" 3).1 = .ok [] ∧
    (open_book_search_cached_call wNet ⟨[]⟩ "q" 3).2.2 =
      [NetRequest.searchReq "q" 3] ∧
    (open_book_search_cached_call wNet
        (open_book_search_cached_call wNet ⟨[]⟩ "q" 3).2.1 "q" 3).1 =
      .ok [] ∧
    (open_book_search_cached_call wNet
        (open_book_search_cached_call wNet ⟨[]⟩ "q" 3).2.1 "q" 3).2.2 =
      [] := by
  have h := search_failure_cached_empty wNet ⟨[]⟩ "q" 3 (by decide) rfl rfl
  exact ⟨by decide, rfl, h.1, h.2.1, h.2.2.1, h.2.2.2⟩

/-- Claim C6: a failing or non-200 summary request leaves an empty-string
summary in exactly that record; the operation still returns normally and
every record carries its own independently fetched summary. -/
theorem summary_failure_degrades_single_record (w : World) (q : String)
    (n : Int) (data : Json) (pairs : List (Json × Json)) (i : Nat)
    (p : Json × Json) (hq : q ≠ "")
    (hp : parsedPayload w q n = some data)
    (he : extractPairs data = .ok pairs)
    (hip : pairs[i]? = some p)
    (hf : summaryFailed w p.1 = true) :
    (_open_book_search_cached w q n).1 = .ok (pairs.map (mkRecord w)) ∧
    (pairs.map (mkRecord w))[i]? = some ⟨p.1, p.2, .str ""⟩ ∧
    ∀ (j : Nat) (pj : Json × Json), pairs[j]? = some pj →
      (pairs.map (mkRecord w))[j]? =
        some ⟨pj.1, pj.2, fetchSummary w pj.1⟩ := by
  refine ⟨by rw [cached_body_ok w q n data pairs hq hp he], ?_, ?_⟩
  · rw [List.getElem?_map, hip]
    simp [mkRecord, fetchSummary_of_failed w p.1 hf]
  · intro j pj hj
    rw [List.getElem?_map, hj]
    rfl

/-- Claim C6, witness: the summary of `"B"` answers 404 while `"A"`
succeeds; the result is `[{…, "sA"}, {…, ""}]` with no exception. -/
theorem summary_failure_degrades_single_record_witness :
    summaryFailed wABfail (.str "B") = true ∧
    (_open_book_search_cached wABfail "q" 2).1 =
      .ok [⟨.str "A", .str "u1", .str "sA"⟩,
           ⟨.str "B", .str "u2", .str ""⟩] ∧
    (pairsAB.map (mkRecord wABfail))[1]? =
      some ⟨.str "B", .str "u2", .str ""⟩ := by
  have h := summary_failure_degrades_single_record wABfail "q" 2 dataAB
    pairsAB 1 (.str "B", .str "u2") (by decide) rfl rfl rfl rfl
  exact ⟨rfl, h.1.trans (by rfl), h.2.1⟩

/-- Claim C7: a call with the empty query returns the empty sequence and
performs no network request, whatever the count, whenever the cache holds
only values the wrapped function computed (as `lru_cache` guarantees). -/
theorem empty_query_no_results_no_network (w : World) (c : LruState)
    (n : Int) (hc : CacheConsistent w c) :
    (open_book_search_cached_call w c "" n).1 = .ok [] ∧
    (open_book_search_cached_call w c "" n).2.2 = [] := by
  cases hf : c.entries.find? (fun x => decide (x.1 = (("" : String), n))) with
  | some e =>
      have hpe : e.1 = ("", n) := by
        have h0 := List.find?_some hf
        simpa using h0
      have hmem := List.mem_of_find?_eq_some hf
      have hv : e.2 = [] := by
        have hcons := hc e hmem
        rw [hpe] at hcons
        have h0 : (_open_book_search_cached w ("", n).1 ("", n).2).1 =
            .ok [] := rfl
        rw [h0] at hcons
        exact (Except.ok.inj hcons).symm
      have hcall : open_book_search_cached_call w c "" n =
          (.ok e.2,
           ⟨e :: c.entries.filter
              (fun x => !decide (x.1 = (("" : String), n)))⟩, []) := by
        unfold open_book_search_cached_call lruLookup
        rw [hf]
      rw [hcall, hv]
      exact ⟨rfl, rfl⟩
  | none =>
      have hlk : lruLookup c ("", n) = (none, c) := by
        unfold lruLookup
        rw [hf]
      have hcall : open_book_search_cached_call w c "" n =
          (.ok [], lruInsert c ("", n) [], []) := by
        unfold open_book_search_cached_call
        rw [hlk]
        rfl
      rw [hcall]
      exact ⟨rfl, rfl⟩

/-- Claim C7, witness: from an empty cache, `search("", 5)` returns `[]`
and issues no request even in a world whose endpoints would answer. -/
theorem empty_query_no_results_no_network_witness :
    CacheConsistent wAB ⟨[]⟩ ∧
    (open_book_search_cached_call wAB ⟨[]⟩ "" 5).1 = .ok [] ∧
    (open_book_search_cached_call wAB ⟨[]⟩ "" 5).2.2 = [] := by
  have hc : CacheConsistent wAB ⟨[]⟩ := by
    intro e he
    exact absurd he (List.not_mem_nil e)
  have h := empty_query_no_results_no_network wAB ⟨[]⟩ 5 hc
  exact ⟨hc, h.1, h.2⟩

/-- Claim C8: the cache never exceeds 128 entries — any call from a state
with at most 128 entries leaves at most 128 — and a miss on a full cache
of 128 distinct keys inserts the new entry in front and evicts the
least-recently-used entry (its key is gone from the cache). -/
theorem lru_cache_bound_and_eviction :
    (∀ (w : World) (c : LruState) (q : String) (n : Int),
        c.entries.length ≤ 128 →
        (open_book_search_cached_call w c q n).2.1.entries.length ≤ 128) ∧
    (∀ (w : World) (c : LruState) (q : String) (n : Int)
        (v : List ResultRecord)
        (front : List (CacheKey × List ResultRecord))
        (e : CacheKey × List ResultRecord),
        c.entries = front ++ [e] →
        front.length = 127 →
        c.entries.find? (fun x => decide (x.1 = (q, n))) = none →
        (_open_book_search_cached w q n).1 = .ok v →
        (c.entries.map Prod.fst).Nodup →
        (open_book_search_cached_call w c q n).2.1.entries =
            ((q, n), v) :: front ∧
        (open_book_search_cached_call w c q n).2.1.entries.find?
            (fun x => decide (x.1 = e.1)) = none ∧
        (open_book_search_cached_call w c q n).2.1.entries.length = 128) := by
  constructor
  · intro w c q n hlen
    cases hf : c.entries.find? (fun x => decide (x.1 = (q, n))) with
    | some e =>
        have hcall : open_book_search_cached_call w c q n =
            (.ok e.2,
             ⟨e :: c.entries.filter (fun x => !decide (x.1 = (q, n)))⟩,
             []) := by
          unfold open_book_search_cached_call lruLookup
          rw [hf]
        rw [hcall]
        have hflt :
            (c.entries.filter (fun x => !decide (x.1 = (q, n)))).length <
              c.entries.length := by
          rw [List.length_filter_lt_length_iff_exists]
          refine ⟨e, List.mem_of_find?_eq_some hf, ?_⟩
          have hpe := List.find?_some hf
          simp only [decide_eq_true_eq] at hpe
          simp [hpe]
        show (e :: c.entries.filter (fun x => !decide (x.1 = (q, n)))).length
            ≤ 128
        rw [List.length_cons]
        omega
    | none =>
        have hlk : lruLookup c (q, n) = (none, c) := by
          unfold lruLookup
          rw [hf]
        rcases hb : _open_book_search_cached w q n with ⟨res, log⟩
        cases res with
        | error err =>
            have hcall : open_book_search_cached_call w c q n =
                (.error err, c, log) := by
              unfold open_book_search_cached_call
              rw [hlk, hb]
            rw [hcall]
            exact hlen
        | ok v =>
            have hcall : open_book_search_cached_call w c q n =
                (.ok v, lruInsert c (q, n) v, log) := by
              unfold open_book_search_cached_call
              rw [hlk, hb]
            rw [hcall]
            show ((((q, n), v) :: c.entries).take 128).length ≤ 128
            rw [List.length_take]
            omega
  · intro w c q n v front e hce hfl hf hok hnd
    have hlk : lruLookup c (q, n) = (none, c) := by
      unfold lruLookup
      rw [hf]
    rcases hb : _open_book_search_cached w q n with ⟨res, log⟩
    rw [hb] at hok
    have hres : res = .ok v := hok
    subst hres
    have hcall : open_book_search_cached_call w c q n =
        (.ok v, lruInsert c (q, n) v, log) := by
      unfold open_book_search_cached_call
      rw [hlk, hb]
    rw [hcall]
    have hinsert : (lruInsert c (q, n) v).entries = ((q, n), v) :: front := by
      show (((q, n), v) :: c.entries).take 128 = ((q, n), v) :: front
      rw [show (128 : Nat) = 127 + 1 from rfl, List.take_succ_cons, hce,
          ← hfl, List.take_left]
    have hne : e.1 ≠ (q, n) := by
      have h0 := List.find?_eq_none.mp hf e
        (by rw [hce]; exact List.mem_append_right _ (by simp))
      simpa using h0
    refine ⟨hinsert, ?_, ?_⟩
    · rw [hinsert, List.find?_eq_none]
      intro x hx
      rcases List.mem_cons.mp hx with h1 | h2
      · subst h1
        simp [Ne.symm hne]
      · have hkeys : e.1 ∉ front.map Prod.fst := by
          rw [hce, List.map_append] at hnd
          have hdisj := (List.nodup_append.mp hnd).2.2
          intro hmem
          exact hdisj hmem (by simp)
        have hx1 : x.1 ≠ e.1 := by
          intro hx1
          exact hkeys (hx1 ▸ List.mem_map_of_mem Prod.fst h2)
        simp [hx1]
    · rw [hinsert, List.length_cons, hfl]

set_option maxRecDepth 4000 in
/-- Claim C8, witness: a full cache of 128 distinct keys; a call with a
fresh key keeps the size at 128 and evicts the last (least recently used)
entry, whose key is no longer found. -/
theorem lru_cache_bound_and_eviction_witness :
    fullCache.entries = frontCache ++ [lruEntry] ∧
    frontCache.length = 127 ∧
    fullCache.entries.find?
      (fun x => decide (x.1 = (("q" : String), (0 : Int)))) = none ∧
    (_open_book_search_cached wNet "q" 0).1 = .ok [] ∧
    (fullCache.entries.map Prod.fst).Nodup ∧
    (open_book_search_cached_call wNet ⟨[]⟩ "q" 0).2.1.entries.length
      ≤ 128 ∧
    ((open_book_search_cached_call wNet fullCache "q" 0).2.1.entries =
        ((("q" : String), (0 : Int)), ([] : List ResultRecord)) ::
          frontCache ∧
      (open_book_search_cached_call wNet fullCache "q" 0).2.1.entries.find?
        (fun x => decide (x.1 = lruEntry.1)) = none ∧
      (open_book_search_cached_call wNet
          fullCache "q" 0).2.1.entries.length = 128) := by
  refine ⟨rfl, rfl, rfl, rfl, by decide, ?_, ?_⟩
  · exact lru_cache_bound_and_eviction.1 wNet ⟨[]⟩ "q" 0 (by decide)
  · exact lru_cache_bound_and_eviction.2 wNet fullCache "q" 0 [] frontCache
      lruEntry rfl rfl rfl rfl (by decide)

/-- Claim C9: when the payload's title and URL arrays have unequal
lengths, `zip` silently truncates — exactly
`min (len titles) (len urls)` records come back, paired by index, with no
error. -/
theorem unequal_arrays_zip_truncates (w : World) (q : String) (n : Int)
    (data : Json) (ts us : List Json) (hq : q ≠ "")
    (hp : parsedPayload w q n = some data)
    (ht : data.pyIndex 1 = .ok (.arr ts))
    (hu : data.pyIndex 3 = .ok (.arr us)) :
    (_open_book_search_cached w q n).1 =
      .ok ((ts.zip us).map (mkRecord w)) ∧
    ((ts.zip us).map (mkRecord w)).length = min ts.length us.length := by
  constructor
  · rw [cached_body_ok w q n data (ts.zip us) hq hp
        (extractPairs_of_arrays data ts us ht hu)]
  · rw [List.length_map, List.length_zip]

/-- Claim C9, witness: three titles, two urls — the result has
`min 3 2 = 2` records and no exception. -/
theorem unequal_arrays_zip_truncates_witness :
    (_open_book_search_cached wUneven "q" 3).1 =
      .ok (([Json.str "T1", Json.str "T2", Json.str "T3"].zip
          [Json.str "u1", Json.str "u2"]).map (mkRecord wUneven)) ∧
    (([Json.str "T1", Json.str "T2", Json.str "T3"].zip
        [Json.str "u1", Json.str "u2"]).map (mkRecord wUneven)).length =
      min 3 2 := by
  have h := unequal_arrays_zip_truncates wUneven "q" 3 dataUneven
    [Json.str "T1", Json.str "T2", Json.str "T3"]
    [Json.str "u1", Json.str "u2"] (by decide) rfl rfl rfl
  exact ⟨h.1, h.2⟩

/-- Claim C10: the operation never truncates locally to `n_results` — the
count appears only as the `limit` parameter of the search request, and the
number of records equals the number of zipped `(title, url)` pairs. -/
theorem no_local_truncation (w : World) (q : String) (n : Int)
    (data : Json) (pairs : List (Json × Json)) (hq : q ≠ "")
    (hp : parsedPayload w q n = some data)
    (he : extractPairs data = .ok pairs) :
    (_open_book_search_cached w q n).1 = .ok (pairs.map (mkRecord w)) ∧
    (pairs.map (mkRecord w)).length = pairs.length ∧
    (_open_book_search_cached w q n).2 =
      NetRequest.searchReq q n ::
        pairs.map (fun p => NetRequest.summaryReq p.1) := by
  have hbody := cached_body_ok w q n data pairs hq hp he
  exact ⟨by rw [hbody], by simp, by rw [hbody]⟩

/-- Claim C10, witness: with `n_results = 1` forwarded as the limit, a
two-pair response still yields two records. -/
theorem no_local_truncation_witness :
    (_open_book_search_cached wAB "q" 1).1 =
      .ok (pairsAB.map (mkRecord wAB)) ∧
    (pairsAB.map (mkRecord wAB)).length = pairsAB.length ∧
    (_open_book_search_cached wAB "q" 1).2 =
      NetRequest.searchReq "q" 1 ::
        pairsAB.map (fun p => NetRequest.summaryReq p.1) ∧
    pairsAB.length = 2 := by
  have h := no_local_truncation wAB "q" 1 dataAB pairsAB (by decide) rfl rfl
  exact ⟨h.1, h.2.1, h.2.2, rfl⟩

end Retrieval
